import Mathlib

/-!
Verification of the Frustal fractal renderer (Rust) against its
natural-language specification.

The embedding models the renderer core (src/fractals.rs, src/renderer.rs,
src/args.rs).  Rust `f64` values are modelled as exact rationals: every
arithmetic operation the renderer performs on finite, well-scaled inputs
(add, sub, mul, div by a nonzero value, comparison) is abstracted to the
corresponding exact operation on `ℚ`, and `z.norm() > 2.0` is rendered as
the exactly equivalent `normSq z > 4`.  The one place where IEEE special
values (infinities, NaN) are semantically load-bearing - the `Smooth`
color arm, which computes `log2` of a possibly-zero iteration count - is
modelled by an extended-value type `F` with IEEE propagation rules and an
abstract `log2` parameter constrained only by the properties of the real
`f64::log2` that the proofs use (its value at 0 and its sign on inputs
at least 1).
-/

namespace Frustal

/-- Complex multiplication on pairs of rationals, as num_complex computes it:
re = a.re * b.re - a.im * b.im, im = a.re * b.im + a.im * b.re. -/
def cMul (a b : ℚ × ℚ) : ℚ × ℚ :=
  (a.1 * b.1 - a.2 * b.2, a.1 * b.2 + a.2 * b.1)

/-- Complex addition on pairs of rationals. -/
def cAdd (a b : ℚ × ℚ) : ℚ × ℚ :=
  (a.1 + b.1, a.2 + b.2)

/-- Squared Euclidean norm of a complex number represented as a pair.
The Rust code compares `z.norm() > 2.0`; for exact arithmetic this is
equivalent to `cNormSq z > 4`. -/
def cNormSq (a : ℚ × ℚ) : ℚ :=
  a.1 * a.1 + a.2 * a.2

/-- Loop body of `mandelbrot` (src/fractals.rs lines 7-12), as fuel
recursion.  The Rust loop runs `iteration` from 0 to `max_iter - 1`;
here `fuel` counts the remaining trips, so `iteration + fuel = max_iter`
is invariant at every entry from `mandelbrot`, and returning `iteration`
on exhausted fuel is exactly the Rust function returning `max_iter`. -/
def mandelbrotLoop (c : ℚ × ℚ) : ℚ × ℚ → ℕ → ℕ → ℕ
  | _, iteration, 0 => iteration
  | z, iteration, fuel + 1 =>
      if 4 < cNormSq z then iteration
      else mandelbrotLoop c (cAdd (cMul z z) c) (iteration + 1) fuel

/-- Escape-time evaluator `mandelbrot` (src/fractals.rs lines 3-15):
iterate `z <- z * z + c` from `z = 0`, returning the first iteration index
at which `|z| > 2`, or `max_iter` if the cap is reached first. -/
def mandelbrot (real imag : ℚ) (max_iter : ℕ) : ℕ :=
  mandelbrotLoop (real, imag) (0, 0) 0 max_iter

/-- On the origin the iterate stays at 0 forever, so the loop always
exhausts its fuel: from any starting count it returns count + fuel. -/
lemma mandelbrotLoop_origin (iteration fuel : ℕ) :
    mandelbrotLoop (0, 0) (0, 0) iteration fuel = iteration + fuel := by
  induction fuel generalizing iteration with
  | zero => simp [mandelbrotLoop]
  | succ n ih =>
      rw [mandelbrotLoop]
      have h4 : ¬ (4 : ℚ) < cNormSq (0, 0) := by norm_num [cNormSq]
      rw [if_neg h4]
      have hz : cAdd (cMul ((0 : ℚ), (0 : ℚ)) (0, 0)) (0, 0) = (0, 0) := by
        norm_num [cAdd, cMul]
      rw [hz, ih]
      omega

/-- Claim C1 (amended): for every cap N at least 2 and every sample c with
|c| > 2 (equivalently re * re + im * im > 4), `mandelbrot` returns a value
strictly below N (in fact it returns 1, since the escape test precedes the
first squaring); and for c = 0 it returns exactly N for every cap. -/
theorem C1_mandelbrot_escape_amended (re im : ℚ) (N : ℕ)
    (hN : 2 ≤ N) (hc : 4 < re * re + im * im) :
    mandelbrot re im N < N ∧ ∀ M : ℕ, mandelbrot 0 0 M = M := by
  constructor
  · obtain ⟨n, rfl⟩ : ∃ n, N = n + 2 := ⟨N - 2, by omega⟩
    rw [mandelbrot, mandelbrotLoop]
    have h0 : ¬ (4 : ℚ) < cNormSq (0, 0) := by norm_num [cNormSq]
    rw [if_neg h0]
    have hz : cAdd (cMul ((0 : ℚ), (0 : ℚ)) (0, 0)) (re, im) = (re, im) := by
      norm_num [cAdd, cMul]
    rw [hz, mandelbrotLoop]
    have h1 : (4 : ℚ) < cNormSq (re, im) := by simpa [cNormSq] using hc
    rw [if_pos h1]
    omega
  · intro M
    rw [mandelbrot, mandelbrotLoop_origin]
    omega

/-- Witness for C1: at c = 3 (so |c| > 2) with cap 2, the evaluator
returns a value below 2, and at the origin with cap 2 it returns 2. -/
theorem C1_mandelbrot_escape_amended_witness :
    mandelbrot 3 0 2 < 2 ∧ mandelbrot 0 0 2 = 2 := by
  have h := C1_mandelbrot_escape_amended 3 0 2 (by norm_num) (by norm_num)
  exact ⟨h.1, h.2 2⟩

/-- Counterexample to C1 as stated: the claim asserts the escape bound for
every cap N at least 1, but at cap N = 1 and c = 3 (which has |c| > 2) the
single loop trip tests z = 0 before the first squaring, never sees an
escaped iterate, and returns the cap 1 - not a value strictly below 1. -/
theorem C1_counterexample :
    (4 : ℚ) < 3 * 3 + 0 * 0 ∧ 1 ≤ 1 ∧ ¬ (mandelbrot 3 0 1 < 1) := by
  refine ⟨by norm_num, le_refl 1, ?_⟩
  have : mandelbrot 3 0 1 = 1 := by
    rw [mandelbrot, mandelbrotLoop]
    have h0 : ¬ (4 : ℚ) < cNormSq (0, 0) := by norm_num [cNormSq]
    rw [if_neg h0]
    rfl
  omega

/-- Truncation toward zero on rationals, modelling the rounding used both by
Rust float-to-integer casts and by f64::trunc. -/
def ratTrunc (q : ℚ) : ℤ :=
  if 0 ≤ q then ⌊q⌋ else ⌈q⌉

/-- Saturating cast of a finite value to u8 (`as u8` in Rust): truncate
toward zero, then clamp into [0, 255]. -/
def u8cast (q : ℚ) : ℕ :=
  (min 255 (max 0 (ratTrunc q))).toNat

/-- Floor followed by a saturating u8 cast (`.floor() as u8` in Rust). -/
def u8floorCast (q : ℚ) : ℕ :=
  (min 255 (max 0 ⌊q⌋)).toNat

/-- Rust f64 `%` on finite operands: remainder with the dividend's sign,
x - y * trunc(x / y).  The renderer only applies it with divisor 256. -/
def frem (x y : ℚ) : ℚ :=
  x - y * ratTrunc (x / y)

/-- Extended value domain for the one code path where IEEE special values
matter (the Smooth color arm feeds log2(0) = -inf through fract, producing
NaN): a finite rational, the two infinities, or NaN. -/
inductive F where
  | fin : ℚ → F
  | pinf : F
  | ninf : F
  | nan : F
deriving DecidableEq

namespace F

/-- IEEE addition on extended values. -/
def add : F → F → F
  | nan, _ => nan
  | _, nan => nan
  | fin a, fin b => fin (a + b)
  | pinf, ninf => nan
  | ninf, pinf => nan
  | pinf, _ => pinf
  | ninf, _ => ninf
  | fin _, pinf => pinf
  | fin _, ninf => ninf

/-- IEEE subtraction on extended values. -/
def sub : F → F → F
  | nan, _ => nan
  | _, nan => nan
  | fin a, fin b => fin (a - b)
  | pinf, pinf => nan
  | ninf, ninf => nan
  | pinf, _ => pinf
  | ninf, _ => ninf
  | fin _, pinf => ninf
  | fin _, ninf => pinf

/-- IEEE multiplication on extended values (infinity times zero is NaN). -/
def mul : F → F → F
  | nan, _ => nan
  | _, nan => nan
  | fin a, fin b => fin (a * b)
  | pinf, pinf => pinf
  | pinf, ninf => ninf
  | ninf, pinf => ninf
  | ninf, ninf => pinf
  | pinf, fin b => if b = 0 then nan else if 0 < b then pinf else ninf
  | ninf, fin b => if b = 0 then nan else if 0 < b then ninf else pinf
  | fin a, pinf => if a = 0 then nan else if 0 < a then pinf else ninf
  | fin a, ninf => if a = 0 then nan else if 0 < a then ninf else pinf

/-- IEEE division on extended values.  ℚ has a single zero, which models
IEEE +0.0 (the only zero the renderer produces); hence x / 0 for x > 0 is
+inf, and an infinity divided by 0 keeps its own sign. -/
def div : F → F → F
  | nan, _ => nan
  | _, nan => nan
  | fin a, fin b =>
      if b = 0 then (if a = 0 then nan else if 0 < a then pinf else ninf)
      else fin (a / b)
  | fin _, pinf => fin 0
  | fin _, ninf => fin 0
  | pinf, fin b => if 0 ≤ b then pinf else ninf
  | ninf, fin b => if 0 ≤ b then ninf else pinf
  | pinf, pinf => nan
  | pinf, ninf => nan
  | ninf, pinf => nan
  | ninf, ninf => nan

/-- Rust f64::fract, self - self.trunc(): NaN on infinities and NaN,
the fractional part (with the value's sign) on finite values. -/
def fract : F → F
  | fin q => fin (q - ratTrunc q)
  | _ => nan

/-- Saturating `as u8` cast on extended values: NaN and -inf give 0,
+inf gives 255, finite values truncate and clamp. -/
def castU8 : F → ℕ
  | fin q => u8cast q
  | pinf => 255
  | ninf => 0
  | nan => 0

end F

/-- Color scheme selector of the mapper (src/fractals.rs lines 17-28). -/
inductive ColorMode where
  | Smooth
  | Zebra
  | Red
  | Blue
  | BlackAndWhite
  | Rainbow
  | Psychedelic
  | GreenGradient
  | Electric
deriving DecidableEq

/-- Color mapper `color_map` (src/fractals.rs lines 30-146).  The `lg2`
parameter abstracts f64::log2, which the Smooth arm applies to the
iteration count and the cap; log2 of a general integer is irrational, so
the embedding keeps it abstract and the theorems constrain it by the
properties of the real function they need (value at 0, sign at inputs of
at least 1).  All other arithmetic is exact rational arithmetic, faithful
whenever the cap is at least 1 (a cap of 0 never reaches the arms in the
program: the equality pre-check catches it). -/
def colorMap (lg2 : ℚ → F) (iterations max_iterations : ℕ)
    (mode : ColorMode) : ℕ × ℕ × ℕ :=
  if iterations = max_iterations then (0, 0, 0)
  else
    let normalized_iter : ℚ := (iterations : ℚ) / (max_iterations : ℚ)
    match mode with
    | ColorMode.Smooth =>
        let log_zn := lg2 ((iterations : ℚ) * 1)
        let nu := F.div log_zn (lg2 (max_iterations : ℚ))
        let t := F.fract nu
        let r := F.castU8
          (F.add (F.mul (F.sub (F.fin 1) t) (F.fin 9)) (F.mul t (F.fin 15)))
        let g := F.castU8
          (F.add (F.mul (F.sub (F.fin 1) t) (F.fin 0)) (F.mul t (F.fin 7)))
        let b := F.castU8
          (F.add (F.mul (F.sub (F.fin 1) t) (F.fin 255)) (F.mul t (F.fin 100)))
        (r, g, b)
    | ColorMode.Zebra =>
        let stripe_width : ℚ := (max_iterations : ℚ) / 10
        let stripe_index : ℕ := (⌊(iterations : ℚ) / stripe_width⌋).toNat
        if stripe_index % 2 = 0 then (255, 255, 255) else (0, 0, 0)
    | ColorMode.Red => (u8cast (normalized_iter * 255), 0, 0)
    | ColorMode.Blue => (0, 0, u8cast (normalized_iter * 255))
    | ColorMode.BlackAndWhite =>
        let intensity := u8cast (normalized_iter * 255)
        (intensity, intensity, intensity)
    | ColorMode.Rainbow =>
        let hue := normalized_iter * 6
        let r :=
          if hue < 1 then u8floorCast (hue * 255)
          else if hue < 2 then u8floorCast (255 - (hue - 1) * 255)
          else if hue < 3 then 0
          else if hue < 4 then u8floorCast ((hue - 3) * 255)
          else if hue < 5 then u8floorCast (255 - (hue - 4) * 255)
          else 0
        let g :=
          if hue < 1 then u8floorCast (255 - hue * 255)
          else if hue < 2 then 255
          else if hue < 3 then u8floorCast (255 - (hue - 2) * 255)
          else if hue < 4 then 0
          else if hue < 5 then u8floorCast ((hue - 4) * 255)
          else 255
        let b :=
          if hue < 1 then 0
          else if hue < 2 then u8floorCast ((hue - 1) * 255)
          else if hue < 3 then 255
          else if hue < 4 then u8floorCast (255 - (hue - 3) * 255)
          else if hue < 5 then 0
          else u8floorCast ((hue - 5) * 255)
        (r, g, b)
    | ColorMode.Psychedelic =>
        (u8floorCast (frem (normalized_iter * 255 * 3) 256),
         u8floorCast (frem (normalized_iter * 255 * 5) 256),
         u8floorCast (frem (normalized_iter * 255 * 7) 256))
    | ColorMode.GreenGradient => (0, u8cast (normalized_iter * 255), 0)
    | ColorMode.Electric =>
        (u8floorCast (frem (normalized_iter * 255 * 2) 256),
         u8floorCast (frem (normalized_iter * 255 * 3) 256),
         u8floorCast (frem (normalized_iter * 255 * 5) 256))

/-- Claim C4: for every color scheme and every iteration cap N, mapping an
iteration count equal to the cap yields the fixed inside-the-set color
black, (0, 0, 0), identically across schemes and independently of the
log2 model. -/
theorem C4_colorMap_inside_black (lg2 : ℚ → F) (N : ℕ) (mode : ColorMode) :
    colorMap lg2 N N mode = (0, 0, 0) := by
  simp [colorMap]

/-- One concrete stand-in for the abstract log2 parameter, agreeing with
f64::log2 on the properties the theorems constrain: -inf at 0 and a
nonnegative finite value on inputs of at least 1.  Used to instantiate
witnesses at points where only those properties matter. -/
def log2Witness (q : ℚ) : F :=
  if q = 0 then F.ninf else if 1 ≤ q then F.fin 0 else F.nan

/-- Claim C9: under any log2 model with log2 0 = -inf and a finite
nonnegative value on inputs of at least 1 (as f64::log2 has), an escaped
point with iteration count 0 under the Smooth scheme is colored exactly
(0, 0, 0): the -inf flows through the division, fract turns it into NaN,
and every NaN channel cast saturates to 0, coinciding with the
inside-the-set color. -/
theorem C9_colorMap_smooth_zero_black (lg2 : ℚ → F) (N : ℕ)
    (hN : 1 ≤ N) (h0 : lg2 0 = F.ninf)
    (h1 : ∀ q : ℚ, 1 ≤ q → ∃ p : ℚ, 0 ≤ p ∧ lg2 q = F.fin p) :
    colorMap lg2 0 N ColorMode.Smooth = (0, 0, 0) := by
  obtain ⟨p, hp0, hp⟩ := h1 (N : ℚ) (by exact_mod_cast hN)
  have hne : (0 : ℕ) ≠ N := by omega
  rw [colorMap, if_neg hne]
  have harg : ((0 : ℕ) : ℚ) * 1 = 0 := by norm_num
  simp only [harg, h0, hp]
  rw [show F.div F.ninf (F.fin p) = F.ninf from by rw [F.div, if_pos hp0]]
  rfl

/-- Witness for C9: with the concrete log2 stand-in and cap 2, the Smooth
scheme colors an escaped point of iteration count 0 black. -/
theorem C9_colorMap_smooth_zero_black_witness :
    colorMap log2Witness 0 2 ColorMode.Smooth = (0, 0, 0) := by
  refine C9_colorMap_smooth_zero_black log2Witness 2 (by norm_num) ?_ ?_
  · rw [log2Witness, if_pos rfl]
  · intro q hq
    refine ⟨0, le_refl 0, ?_⟩
    rw [log2Witness, if_neg (by linarith), if_pos hq]

/-- Color scheme selector of the configuration (src/args.rs lines 3-14);
a twin of the mapper's ColorMode, bridged by Renderer.get_color. -/
inductive ColorScheme where
  | Smooth
  | Zebra
  | Red
  | Blue
  | BlackAndWhite
  | Rainbow
  | Psychedelic
  | GreenGradient
  | Electric
deriving DecidableEq

/-- Progressive-scan configuration (src/args.rs lines 16-20). -/
structure ScanConfig where
  enabled : Bool
  initial_stride : ℕ
deriving DecidableEq

/-- ScanConfig::default (src/args.rs lines 22-29): scanning on, stride 8. -/
def ScanConfig.default : ScanConfig :=
  { enabled := true, initial_stride := 8 }

/-- Startup configuration (src/args.rs lines 31-40).  Complex corners are
pairs of rationals; u32 fields are naturals. -/
structure Args where
  width : ℕ
  height : ℕ
  upper_left : ℚ × ℚ
  lower_right : ℚ × ℚ
  max_iterations : ℕ
  color_scheme : ColorScheme
  fullscreen : Bool
  scan_config : ScanConfig

/-- Args::new (src/args.rs lines 44-71).  The Rust constructor panics on a
zero width, height, or iteration cap; a panic is rendered as `none`. -/
def argsNew (width height max_iterations : ℕ) (fullscreen : Bool)
    (upper_left lower_right : ℚ × ℚ) (color_scheme : ColorScheme) :
    Option Args :=
  if width ≤ 0 ∨ height ≤ 0 then none
  else if max_iterations ≤ 0 then none
  else some
    { width := width, height := height, upper_left := upper_left,
      lower_right := lower_right, max_iterations := max_iterations,
      color_scheme := color_scheme, fullscreen := fullscreen,
      scan_config := ScanConfig.default }

/-- Args::with_size (src/args.rs lines 81-89): panics (none) on a zero
dimension, otherwise replaces width and height. -/
def with_size (a : Args) (width height : ℕ) : Option Args :=
  if width ≤ 0 ∨ height ≤ 0 then none
  else some { a with width := width, height := height }

/-- Args::with_max_iterations (src/args.rs lines 91-98): panics (none) on a
zero cap, otherwise replaces the cap. -/
def with_max_iterations (a : Args) (max_iterations : ℕ) : Option Args :=
  if max_iterations ≤ 0 then none
  else some { a with max_iterations := max_iterations }

/-- Claim C8 (amended): construction fails exactly when width, height, or
the iteration cap is zero - the region is not validated at all, so a
degenerate (zero-area) region is accepted - and on success every supplied
value is stored (with_size and with_max_iterations behave likewise on
their fields, preserving the rest). -/
theorem C8_args_validation_amended (w h m : ℕ) (fs : Bool)
    (ul lr : ℚ × ℚ) (cs : ColorScheme) :
    (argsNew w h m fs ul lr cs = none ↔ w = 0 ∨ h = 0 ∨ m = 0) ∧
    (∀ a, argsNew w h m fs ul lr cs = some a →
      a.width = w ∧ a.height = h ∧ a.max_iterations = m ∧
      a.upper_left = ul ∧ a.lower_right = lr ∧
      a.color_scheme = cs ∧ a.fullscreen = fs) ∧
    (∀ a : Args, (with_size a w h = none ↔ w = 0 ∨ h = 0) ∧
      ∀ b, with_size a w h = some b →
        b.width = w ∧ b.height = h ∧ b.max_iterations = a.max_iterations) ∧
    (∀ a : Args, (with_max_iterations a m = none ↔ m = 0) ∧
      ∀ b, with_max_iterations a m = some b →
        b.max_iterations = m ∧ b.width = a.width ∧ b.height = a.height) := by
  refine ⟨?_, ?_, ?_, ?_⟩
  · rw [argsNew]
    split_ifs with h1 h2 <;> simp <;> omega
  · intro a ha
    rw [argsNew] at ha
    split_ifs at ha
    injection ha with ha
    subst ha
    exact ⟨rfl, rfl, rfl, rfl, rfl, rfl, rfl⟩
  · intro a
    constructor
    · rw [with_size]
      split_ifs with h1 <;> simp <;> omega
    · intro b hb
      rw [with_size] at hb
      split_ifs at hb
      injection hb with hb
      subst hb
      exact ⟨rfl, rfl, rfl⟩
  · intro a
    constructor
    · rw [with_max_iterations]
      split_ifs with h1 <;> simp <;> omega
    · intro b hb
      rw [with_max_iterations] at hb
      split_ifs at hb
      injection hb with hb
      subst hb
      exact ⟨rfl, rfl, rfl⟩

/-- Concrete configuration value produced by a successful construction,
used by the C8 witness. -/
def argsSample : Args :=
  { width := 800, height := 600, upper_left := (0, 0),
    lower_right := (1, 1), max_iterations := 100,
    color_scheme := ColorScheme.Red, fullscreen := false,
    scan_config := ScanConfig.default }

/-- Witness for C8: zero width is rejected, a valid construction stores its
width and cap, and the two builders reject zero arguments. -/
theorem C8_args_validation_amended_witness :
    argsNew 0 600 100 false (0, 0) (1, 1) ColorScheme.Red = none ∧
    argsSample.width = 800 ∧ argsSample.max_iterations = 100 ∧
    with_size argsSample 0 10 = none ∧
    with_max_iterations argsSample 0 = none := by
  have hnone :=
    (C8_args_validation_amended 0 600 100 false (0, 0) (1, 1)
      ColorScheme.Red).1.mpr (Or.inl rfl)
  have hsome :=
    (C8_args_validation_amended 800 600 100 false (0, 0) (1, 1)
      ColorScheme.Red).2.1 argsSample rfl
  have hsize :=
    ((C8_args_validation_amended 0 10 100 false (0, 0) (1, 1)
      ColorScheme.Red).2.2.1 argsSample).1.mpr (Or.inl rfl)
  have hiter :=
    ((C8_args_validation_amended 800 600 0 false (0, 0) (1, 1)
      ColorScheme.Red).2.2.2 argsSample).1.mpr rfl
  exact ⟨hnone, hsome.1, hsome.2.2.1, hsize, hiter⟩

/-- Counterexample to C8 as stated: the claim asserts construction also
fails for a degenerate (zero-area) initial region, but with both corners
equal to (0, 0) - a zero-area region - and otherwise valid inputs,
Args::new succeeds. -/
theorem C8_counterexample :
    (argsNew 800 600 100 false (0, 0) (0, 0) ColorScheme.Red).isSome
      = true := by
  rfl

/-- Renderer state (src/renderer.rs lines 13-23). -/
structure Renderer where
  width : ℕ
  height : ℕ
  center_x : ℚ
  center_y : ℚ
  scale : ℚ
  max_iterations : ℕ
  color_scheme : ColorScheme
  scan_level : ℕ
  scan_config : ScanConfig

/-- Renderer::new (src/renderer.rs lines 26-38): the startup state. -/
def Renderer.new : Renderer :=
  { width := 800, height := 600, center_x := -(1 / 2), center_y := 0,
    scale := 5 / 2, max_iterations := 200,
    color_scheme := ColorScheme.Smooth, scan_level := 0,
    scan_config := ScanConfig.default }

/-- Renderer::pan (src/renderer.rs lines 40-46): shift the center by the
given fractions of the current extent times the pan speed constant 0.3,
then restart refinement if scanning is enabled. -/
def Renderer.pan (r : Renderer) (dx dy : ℚ) : Renderer :=
  let r1 := { r with center_x := r.center_x + dx * r.scale * (3 / 10),
                     center_y := r.center_y + dy * r.scale * (3 / 10) }
  if r1.scan_config.enabled then { r1 with scan_level := 0 } else r1

/-- Renderer::zoom (src/renderer.rs lines 48-57): multiply the scale by the
factor; the new scale is adopted (and refinement restarted when scanning is
enabled) only if it does not exceed 10, otherwise nothing changes. -/
def Renderer.zoom (r : Renderer) (factor : ℚ) : Renderer :=
  let new_scale := r.scale * factor
  if new_scale ≤ 10 then
    let r1 := { r with scale := new_scale }
    if r1.scan_config.enabled then { r1 with scan_level := 0 } else r1
  else r

/-- Renderer::change_color_scheme (src/renderer.rs lines 179-184). -/
def Renderer.change_color_scheme (r : Renderer) (scheme : ColorScheme) :
    Renderer :=
  let r1 := { r with color_scheme := scheme }
  if r1.scan_config.enabled then { r1 with scan_level := 0 } else r1

/-- Claim C7: pan by (dx, dy) and then by (-dx, -dy) restores the original
center exactly (pan leaves the scale untouched, so the two displacements
cancel term by term in exact arithmetic). -/
theorem C7_pan_roundtrip (r : Renderer) (dx dy : ℚ) :
    ((r.pan dx dy).pan (-dx) (-dy)).center_x = r.center_x ∧
    ((r.pan dx dy).pan (-dx) (-dy)).center_y = r.center_y := by
  simp only [Renderer.pan]
  split_ifs <;> constructor <;> simp

/-- Claim C10: a rejected zoom is atomic - whenever scale * factor exceeds
10 the call returns with the entire Renderer state unchanged, so in
particular scan_level is not reset and an in-progress refinement
continues. -/
theorem C10_zoom_reject_atomic (r : Renderer) (factor : ℚ)
    (h : 10 < r.scale * factor) :
    r.zoom factor = r := by
  unfold Renderer.zoom
  rw [if_neg (not_le.mpr h)]

/-- Witness for C10: from the startup state, a zoom by factor 100 has
scale * factor = 250 > 10 and leaves the state identical. -/
theorem C10_zoom_reject_atomic_witness :
    Renderer.new.zoom 100 = Renderer.new := by
  refine C10_zoom_reject_atomic Renderer.new 100 ?_
  norm_num [Renderer.new]

/-- Claim C6 (amended): zoom preserves strict positivity of the scale
provided the factor itself is strictly positive - an accepted zoom
multiplies the positive scale by the positive factor, a rejected zoom
leaves it untouched.  The code does not check the sign of the factor or
of the new scale, only the upper bound of 10. -/
theorem C6_zoom_scale_positive_amended (r : Renderer) (factor : ℚ)
    (hs : 0 < r.scale) (hf : 0 < factor) :
    0 < (r.zoom factor).scale := by
  simp only [Renderer.zoom]
  split_ifs <;> (try simp) <;> positivity

/-- Witness for C6: from the startup state (scale 5/2 > 0) a zoom by 1/2
keeps the scale strictly positive. -/
theorem C6_zoom_scale_positive_amended_witness :
    0 < (Renderer.new.zoom (1 / 2)).scale := by
  refine C6_zoom_scale_positive_amended Renderer.new (1 / 2) ?_ ?_
  · norm_num [Renderer.new]
  · norm_num

/-- Counterexample to C6 as stated: the claim says the scale stays strictly
positive after every zoom call, but the guard only rejects new scales above
10 - from the startup state (a reachable state), zoom by factor -1 yields
new scale -5/2, which is accepted, leaving a negative (inverted) scale. -/
theorem C6_counterexample :
    (Renderer.new.zoom (-1)).scale = -(5 / 2) ∧
    ¬ 0 < (Renderer.new.zoom (-1)).scale := by
  constructor <;> norm_num [Renderer.zoom, Renderer.new, ScanConfig.default]

/-- Renderer::get_color (src/renderer.rs lines 157-177): dispatch the
configuration scheme to the mapper's mode. -/
def Renderer.get_color (lg2 : ℚ → F) (r : Renderer) (iterations : ℕ) :
    ℕ × ℕ × ℕ :=
  match r.color_scheme with
  | ColorScheme.Smooth => colorMap lg2 iterations r.max_iterations ColorMode.Smooth
  | ColorScheme.Zebra => colorMap lg2 iterations r.max_iterations ColorMode.Zebra
  | ColorScheme.Red => colorMap lg2 iterations r.max_iterations ColorMode.Red
  | ColorScheme.Blue => colorMap lg2 iterations r.max_iterations ColorMode.Blue
  | ColorScheme.BlackAndWhite =>
      colorMap lg2 iterations r.max_iterations ColorMode.BlackAndWhite
  | ColorScheme.Rainbow => colorMap lg2 iterations r.max_iterations ColorMode.Rainbow
  | ColorScheme.Psychedelic =>
      colorMap lg2 iterations r.max_iterations ColorMode.Psychedelic
  | ColorScheme.GreenGradient =>
      colorMap lg2 iterations r.max_iterations ColorMode.GreenGradient
  | ColorScheme.Electric =>
      colorMap lg2 iterations r.max_iterations ColorMode.Electric

/-- Real part of the complex sample for pixel column x
(src/renderer.rs lines 98-99). -/
def Renderer.sampleRe (r : Renderer) (x : ℕ) : ℚ :=
  r.center_x + ((x : ℚ) - (r.width : ℚ) / 2) * r.scale / (r.width : ℚ)

/-- Imaginary part of the complex sample for pixel row y
(src/renderer.rs lines 100-101). -/
def Renderer.sampleIm (r : Renderer) (y : ℕ) : ℚ :=
  r.center_y + ((y : ℚ) - (r.height : ℚ) / 2) * r.scale / (r.height : ℚ)

/-- Write one pixel's four RGBA bytes (copy_from_slice of
[r, g, b, 255]) into the flat byte buffer at the given byte position. -/
def writeRGBA (frame : List ℕ) (pos : ℕ) (color : ℕ × ℕ × ℕ) : List ℕ :=
  ((((frame.set pos color.1).set (pos + 1) color.2.1).set
      (pos + 2) color.2.2).set (pos + 3) 255)

/-- Body of the full-resolution loop for one pixel index
(src/renderer.rs lines 94-109).  The chunk slice of chunk_index starts at
byte 4 * start, so the write at chunk-relative byte (index - start) * 4
lands at absolute byte start * 4 + (index - start) * 4. -/
def renderPixelFull (lg2 : ℚ → F) (r : Renderer) (start index : ℕ)
    (frame : List ℕ) : List ℕ :=
  let x := index % r.width
  let y := index / r.width
  let iterations := mandelbrot (r.sampleRe x) (r.sampleIm y) r.max_iterations
  let color := r.get_color lg2 iterations
  let pixel_index := (index - start) * 4
  writeRGBA frame (start * 4 + pixel_index) color

/-- One chunk of the full-resolution pass: the loop
`for index in start..end` of src/renderer.rs lines 94-109. -/
def renderChunkFull (lg2 : ℚ → F) (r : Renderer) (start endp : ℕ)
    (frame : List ℕ) : List ℕ :=
  (List.range' start (endp - start)).foldl
    (fun f index => renderPixelFull lg2 r start index f) frame

/-- Renderer::render_full (src/renderer.rs lines 82-111).  The buffer is
split with par_chunks_exact_mut(4 * chunk_size), which yields only the
frame.length / (4 * chunk_size) complete chunks and silently ignores any
remainder; each chunk chunk_index covers pixel indices from
chunk_index * chunk_size to min of (start + chunk_size) and width * height.
The parallel chunks write disjoint ranges, so the sequential left fold over
chunk indices computes the same buffer. -/
def Renderer.render_full (lg2 : ℚ → F) (numThreads : ℕ) (r : Renderer)
    (frame : List ℕ) : List ℕ :=
  let chunk_size := max (r.width * r.height / numThreads) 1
  let numChunks := frame.length / (4 * chunk_size)
  (List.range numChunks).foldl
    (fun f chunk_index =>
      renderChunkFull lg2 r (chunk_index * chunk_size)
        (min (chunk_index * chunk_size + chunk_size) (r.width * r.height)) f)
    frame

/-- Block fill of the strided pass (src/renderer.rs lines 139-151): for a
sample at pixel (x, y), loop dy then dx over 0..stride and write the color
at every in-bounds fill pixel whose chunk-relative byte index
(fill_y * width + fill_x - start) * 4 still fits inside the chunk of
chunkBytes = 4 * chunk_size bytes; fills that fall outside the chunk are
dropped by the guard.  Absolute byte position is chunk base start * 4 plus
the relative index. -/
def fillBlock (frame : List ℕ) (color : ℕ × ℕ × ℕ)
    (x y stride width height start chunkBytes : ℕ) : List ℕ :=
  (List.range stride).foldl (fun f dy =>
    (List.range stride).foldl (fun g dx =>
      let fill_x := x + dx
      let fill_y := y + dy
      if fill_x < width ∧ fill_y < height then
        let fill_index := (fill_y * width + fill_x - start) * 4
        if fill_index + 3 < chunkBytes then
          writeRGBA g (start * 4 + fill_index) color
        else g
      else g) f) frame

/-- One chunk of the strided pass: the loop `for index in start..end` of
src/renderer.rs lines 125-153 - only indices whose x and y are both
multiples of the stride are sampled, and each sample fills its block. -/
def renderChunkStride (lg2 : ℚ → F) (r : Renderer)
    (stride start endp chunkBytes : ℕ) (frame : List ℕ) : List ℕ :=
  (List.range' start (endp - start)).foldl
    (fun f index =>
      let x := index % r.width
      let y := index / r.width
      if x % stride = 0 ∧ y % stride = 0 then
        let iterations :=
          mandelbrot (r.sampleRe x) (r.sampleIm y) r.max_iterations
        let color := r.get_color lg2 iterations
        fillBlock f color x y stride r.width r.height start chunkBytes
      else f) frame

/-- Renderer::render_with_stride (src/renderer.rs lines 113-155), with the
same exact-chunk partition as render_full. -/
def Renderer.render_with_stride (lg2 : ℚ → F) (numThreads : ℕ)
    (r : Renderer) (stride : ℕ) (frame : List ℕ) : List ℕ :=
  let chunk_size := max (r.width * r.height / numThreads) 1
  let numChunks := frame.length / (4 * chunk_size)
  (List.range numChunks).foldl
    (fun f chunk_index =>
      renderChunkStride lg2 r stride (chunk_index * chunk_size)
        (min (chunk_index * chunk_size + chunk_size) (r.width * r.height))
        (4 * chunk_size) f)
    frame

/-- Renderer::render (src/renderer.rs lines 59-80): without scanning, a
full pass; with scanning, compute the stride for the current scan level,
return unchanged if it has dropped below 1, otherwise run a strided pass
and advance the level. -/
def Renderer.render (lg2 : ℚ → F) (numThreads : ℕ) (r : Renderer)
    (frame : List ℕ) : Renderer × List ℕ :=
  if ¬ r.scan_config.enabled then (r, r.render_full lg2 numThreads frame)
  else
    let stride :=
      if r.scan_level = 0 then r.scan_config.initial_stride
      else r.scan_config.initial_stride >>> r.scan_level
    if stride < 1 then (r, frame)
    else
      ({ r with scan_level := r.scan_level + 1 },
       r.render_with_stride lg2 numThreads stride frame)

/-- Renderer::is_scanning (src/renderer.rs lines 186-196). -/
def Renderer.is_scanning (r : Renderer) : Bool :=
  if ¬ r.scan_config.enabled then false
  else
    let stride :=
      if r.scan_level = 0 then r.scan_config.initial_stride
      else r.scan_config.initial_stride >>> r.scan_level
    decide (1 ≤ stride)

/-- Iterated render calls with no intervening mutation: feed the renderer
and frame produced by one call into the next. -/
def renderIter (lg2 : ℚ → F) (numThreads : ℕ) :
    ℕ → Renderer → List ℕ → Renderer × List ℕ
  | 0, r, f => (r, f)
  | k + 1, r, f =>
      renderIter lg2 numThreads k (Renderer.render lg2 numThreads r f).1
        (Renderer.render lg2 numThreads r f).2

/-- The stride the scheduler computes at a scan level equals
initial_stride >>> level: the level-0 special case coincides with the
shift by 0. -/
lemma stride_if_eq (s lvl : ℕ) :
    (if lvl = 0 then s else s >>> lvl) = s >>> lvl := by
  rcases Nat.eq_zero_or_pos lvl with h | h
  · subst h
    simp
  · rw [if_neg (by omega)]

/-- A render call with scanning enabled and a live stride only bumps the
scan level; every other renderer field is kept. -/
lemma render_step (lg2 : ℚ → F) (numThreads : ℕ) (r : Renderer)
    (f : List ℕ) (hen : r.scan_config.enabled = true)
    (hs : 1 ≤ r.scan_config.initial_stride >>> r.scan_level) :
    (Renderer.render lg2 numThreads r f).1
      = { r with scan_level := r.scan_level + 1 } := by
  rw [Renderer.render, if_neg (by simp [hen])]
  simp only [stride_if_eq]
  rw [if_neg (by omega)]

/-- Generalized progress lemma for claim C3: from any level, k render calls
advance the scan level by k as long as the stride stays at least 1 at every
intermediate level, and the scan configuration is untouched. -/
lemma renderIter_scan_level (lg2 : ℚ → F) (numThreads : ℕ) (k : ℕ) :
    ∀ (r : Renderer) (f : List ℕ), r.scan_config.enabled = true →
      (∀ j, j < k → 1 ≤ r.scan_config.initial_stride >>> (r.scan_level + j)) →
      (renderIter lg2 numThreads k r f).1.scan_level = r.scan_level + k ∧
      (renderIter lg2 numThreads k r f).1.scan_config = r.scan_config := by
  induction k with
  | zero => intro r f _ _; exact ⟨rfl, rfl⟩
  | succ n ih =>
      intro r f hen hstr
      have h0 : 1 ≤ r.scan_config.initial_stride >>> r.scan_level := by
        simpa using hstr 0 (by omega)
      have hstep := render_step lg2 numThreads r f hen h0
      rw [renderIter, hstep]
      have hrec := ih { r with scan_level := r.scan_level + 1 }
        (Renderer.render lg2 numThreads r f).2 hen
        (fun j hj => by
          show 1 ≤ r.scan_config.initial_stride >>> (r.scan_level + 1 + j)
          rw [show r.scan_level + 1 + j = r.scan_level + (j + 1) by omega]
          exact hstr (j + 1) (by omega))
      refine ⟨?_, ?_⟩
      · rw [hrec.1]
        show r.scan_level + 1 + n = r.scan_level + (n + 1)
        omega
      · exact hrec.2

/-- Claim C3: with scanning enabled, a pan, an accepted zoom, or a
color-scheme change resets scan_level to 0; from level 0, k render calls
with no intervening mutation bring scan_level to k as long as the stride
initial_stride >>> level stays at least 1; and once the stride at the
current level has dropped below 1, is_scanning is false and a render call
changes neither the renderer (in particular scan_level) nor the frame. -/
theorem C3_refinement_state_machine (lg2 : ℚ → F) (numThreads : ℕ) :
    (∀ (r : Renderer) (dx dy : ℚ), r.scan_config.enabled = true →
      (r.pan dx dy).scan_level = 0) ∧
    (∀ (r : Renderer) (factor : ℚ), r.scan_config.enabled = true →
      r.scale * factor ≤ 10 → (r.zoom factor).scan_level = 0) ∧
    (∀ (r : Renderer) (s : ColorScheme), r.scan_config.enabled = true →
      (r.change_color_scheme s).scan_level = 0) ∧
    (∀ (k : ℕ) (r : Renderer) (f : List ℕ), r.scan_config.enabled = true →
      r.scan_level = 0 →
      (∀ j, j < k → 1 ≤ r.scan_config.initial_stride >>> j) →
      (renderIter lg2 numThreads k r f).1.scan_level = k) ∧
    (∀ (r : Renderer) (f : List ℕ), r.scan_config.enabled = true →
      r.scan_config.initial_stride >>> r.scan_level < 1 →
      r.is_scanning = false ∧
      Renderer.render lg2 numThreads r f = (r, f)) := by
  refine ⟨?_, ?_, ?_, ?_, ?_⟩
  · intro r dx dy hen
    simp [Renderer.pan, hen]
  · intro r factor hen hle
    simp [Renderer.zoom, hen, if_pos hle]
  · intro r s hen
    simp [Renderer.change_color_scheme, hen]
  · intro k r f hen h0 hstr
    have := renderIter_scan_level lg2 numThreads k r f hen
      (fun j hj => by simpa [h0] using hstr j hj)
    rw [this.1, h0]
    omega
  · intro r f hen hlt
    constructor
    · rw [Renderer.is_scanning, if_neg (by simp [hen])]
      simp only [stride_if_eq]
      simp [Nat.lt_one_iff.mp hlt]
    · rw [Renderer.render, if_neg (by simp [hen])]
      simp only [stride_if_eq]
      rw [if_pos hlt]

/-- Witness for C3: from the startup state (scanning enabled, stride 8,
level 0), a pan, an accepted zoom, and a scheme change each leave level 0;
two render calls bring the level to 2; and at level 4 (stride 8 >>> 4 = 0)
scanning reports false and a render call is the identity. -/
theorem C3_refinement_state_machine_witness :
    (Renderer.new.pan 1 1).scan_level = 0 ∧
    (Renderer.new.zoom 1).scan_level = 0 ∧
    (Renderer.new.change_color_scheme ColorScheme.Red).scan_level = 0 ∧
    (renderIter log2Witness 1 2 Renderer.new []).1.scan_level = 2 ∧
    ({ Renderer.new with scan_level := 4 }.is_scanning = false ∧
      Renderer.render log2Witness 1 { Renderer.new with scan_level := 4 } []
        = ({ Renderer.new with scan_level := 4 }, [])) := by
  have H := C3_refinement_state_machine log2Witness 1
  refine ⟨H.1 Renderer.new 1 1 rfl, ?_, H.2.2.1 Renderer.new ColorScheme.Red rfl,
    ?_, ?_⟩
  · refine H.2.1 Renderer.new 1 rfl ?_
    norm_num [Renderer.new]
  · refine H.2.2.2.1 2 Renderer.new [] rfl rfl ?_
    decide
  · refine H.2.2.2.2 { Renderer.new with scan_level := 4 } [] rfl ?_
    decide

/-- Renderer state for the C2 failing input: a 3 x 3 target (9 pixels,
not divisible by the 2-thread chunk count), cap 1 so that every sample is
inside the set and colored black. -/
def rSmall : Renderer :=
  { width := 3, height := 3, center_x := 0, center_y := 0, scale := 1,
    max_iterations := 1, color_scheme := ColorScheme.Red, scan_level := 0,
    scan_config := { enabled := false, initial_stride := 8 } }

/-- Claim C2 failing input, evaluated: on a 3 x 3 target with 2 threads the
chunk size is max(9 / 2, 1) = 4, par_chunks_exact_mut yields the
36 / 16 = 2 complete chunks covering pixels 0..7 only, and the remainder
pixel 8 is never written - its alpha byte (index 35) keeps its initial 0,
while the alpha of a covered pixel (index 3) is 255 as the claim demands
for all pixels. -/
theorem C2_render_full_drops_remainder :
    (Renderer.render_full log2Witness 2 rSmall (List.replicate 36 0)).getD 3 99
        = 255 ∧
    (Renderer.render_full log2Witness 2 rSmall (List.replicate 36 0)).getD 35 99
        = 0 ∧
    (Renderer.render_full log2Witness 2 rSmall (List.replicate 36 0)).length
        = 36 := by
  decide

/-- Renderer state for the C5 failing input: a 4 x 4 target rendered with
stride 2, cap 1 so that every sample is colored black. -/
def rFour : Renderer :=
  { width := 4, height := 4, center_x := 0, center_y := 0, scale := 1,
    max_iterations := 1, color_scheme := ColorScheme.Red, scan_level := 0,
    scan_config := { enabled := true, initial_stride := 2 } }

/-- Claim C5 failing input, evaluated: with 3 threads on a 4 x 4 target
the chunk size is max(16 / 3, 1) = 5, so the sample at pixel (0, 0) sits
in the chunk covering pixels 0..4 and its 2 x 2 block member (1, 1) -
pixel 5, beyond the chunk's 20 bytes - is dropped by the chunk-length
guard: its alpha byte 23 keeps its initial 0 although the claim requires
the whole block to be filled.  Block members inside the chunk, such as
pixel 0 (alpha byte 3) and pixel (0, 1) = 4 (alpha byte 19), are
written. -/
theorem C5_render_stride_clips_at_chunks :
    (Renderer.render_with_stride log2Witness 3 rFour 2
        (List.replicate 64 0)).getD 3 99 = 255 ∧
    (Renderer.render_with_stride log2Witness 3 rFour 2
        (List.replicate 64 0)).getD 19 99 = 255 ∧
    (Renderer.render_with_stride log2Witness 3 rFour 2
        (List.replicate 64 0)).getD 23 99 = 0 := by
  decide

end Frustal
